import Mathlib

/-!
Verification model of `hyena_monitor.py` (HLPe-Liquidity-watcher).

The source is a polling monitor: each cycle reads an on-chain deposit cap
(an unsigned 256-bit integer in base units) via `get_current_cap`
(`Web3.from_wei` converts it to an exact `Decimal` by dividing by 10^18),
reads two optional values (total assets, max token supply, substituted by
the string N/A on failure), compares `float(current_cap)` against the
stored `self.previous_cap` (a Python float), and on a difference prints a
change block, attempts a webhook notification, and finally commits
`self.previous_cap = float(current_cap)`.  Any exception inside a cycle is
caught by the handler at the end of `check_cap_change` and logged; the
scheduling loop then continues.

The embedding models:
  * Python binary64 floats as the rationals they represent.  `fl64` is
    rounding to 53 significant bits, nearest, ties to even: exactly what
    CPython performs in `float(Decimal)` and in float arithmetic.  The
    model omits overflow to infinity and subnormal rounding; every value
    reachable in this program (caps below 2^256 base units, hence decimal
    values below 2^197) is a normal, finite double, so the model agrees
    with CPython on all reachable values.
  * `check_cap_change` as a pure step function from the stored state and
    one cycle's environment (whether each RPC read succeeded and with what
    raw value, and how the webhook request fared) to the new state plus an
    observable cycle outcome.  Timestamps and the literal text of log
    lines are not modelled; the outcome constructors record which log
    block the cycle printed.
  * the scheduling loop of `start` as a fold of the step function over a
    list of per-cycle environments: the real loop is this fold unrolled,
    one tick per list element.
-/

/-- Round a rational to the nearest integer, ties to even: the rounding
CPython applies when converting a `Decimal` to a float and inside float
arithmetic. -/
def rndNE (x : ℚ) : ℤ :=
  let f : ℤ := ⌊x⌋
  let r : ℚ := x - f
  if r < 1 / 2 then f
  else if 1 / 2 < r then f + 1
  else if f % 2 = 0 then f else f + 1

/-- Fuel-bounded binary-exponent search: brings `q` into `[1, 2)` by
doubling or halving while tracking the exponent.  Fuel 1200 covers every
exponent that can arise from this program's values, all of which lie far
inside the binary64 normal range. -/
def expAux : ℕ → ℚ → ℤ → ℤ
  | 0, _, e => e
  | fuel + 1, q, e =>
    if q < 1 then expAux fuel (2 * q) (e - 1)
    else if 2 ≤ q then expAux fuel (q / 2) (e + 1)
    else e

/-- Binary exponent of a positive rational: the `e` with `2^e ≤ q < 2^(e+1)`
for every value in the modelled range. -/
def findExp (q : ℚ) : ℤ := expAux 1200 q 0

/-- Binary64 rounding of a positive rational: round the 53-bit mantissa to
nearest, ties to even. -/
def fl64pos (q : ℚ) : ℚ :=
  let e : ℤ := findExp q
  (rndNE (q * 2 ^ (52 - e)) : ℚ) * 2 ^ (e - 52)

/-- The rational value of the binary64 float nearest to `q` (ties to even):
the model of Python `float(...)` applied to an exact `Decimal`, and of the
exactly-computed result of a float arithmetic operation being rounded back
to a float. -/
def fl64 (q : ℚ) : ℚ :=
  if q = 0 then 0
  else if 0 < q then fl64pos q
  else -fl64pos (-q)

/-- Model of `self.w3.from_wei(x, 'ether')`: exact division of the base-unit
integer by 10^18.  web3 performs this as `Decimal` division at precision
999, which is exact for every uint256 input, so the result is the exact
rational `w / 10^18`. -/
def fromWei (w : ℕ) : ℚ := (w : ℚ) / 10 ^ 18

/-- How the webhook POST of `send_webhook_notification` fares when it is
attempted: the server answers with an HTTP status, or `requests` raises
(malformed URL, timeout, connection error and every other exception the
`try` block can see). -/
inductive WebhookOutcome where
  | response (status : ℕ)
  | requestError
  deriving DecidableEq, Repr

/-- What `send_webhook_notification` did, as observable on the console:
returned immediately (no webhook configured), printed the success line
(`response.ok`, i.e. status < 400), printed the status-code error line, or
printed the exception error line.  The function is total: no branch
re-raises, which models the contract that it never fails its caller. -/
inductive NotifyResult where
  | skipped
  | okLogged (status : ℕ)
  | errorLogged (status : ℕ)
  | exceptionLogged
  deriving DecidableEq, Repr

/-- Model of `send_webhook_notification`: early return when no webhook URL
is configured, otherwise one POST whose outcome is logged and swallowed.
`response.ok` in `requests` is `status_code < 400`. -/
def send_webhook_notification (webhookUrl : Option String) (wo : WebhookOutcome) :
    NotifyResult :=
  match webhookUrl with
  | none => .skipped
  | some _ =>
    match wo with
    | .response status => if status < 400 then .okLogged status else .errorLogged status
    | .requestError => .exceptionLogged

/-- Model of `get_total_assets`: the raw read result (`none` = the contract
call raised) is mapped to a decimal, with failure replaced by the N/A
marker, modelled as `none`. -/
def get_total_assets (raw : Option ℕ) : Option ℚ := raw.map fromWei

/-- Model of `get_max_token_supply`: same degraded-failure policy as
`get_total_assets`. -/
def get_max_token_supply (raw : Option ℕ) : Option ℚ := raw.map fromWei

/-- The environment one cycle runs in: the result of the mandatory
deposit-cap read (`none` = `get_current_cap` raised), the results of the
two optional reads, and the webhook outcome that would be observed were a
POST attempted this cycle. -/
structure CycleInput where
  capRead : Option ℕ
  totalAssetsRead : Option ℕ
  maxSupplyRead : Option ℕ
  webhookOutcome : WebhookOutcome
  deriving DecidableEq, Repr

/-- The data dictionary passed to `send_webhook_notification` (and printed
in the change block): old and new cap as floats, their float difference,
the float percent change, and the two optional values (`none` = the N/A
marker).  Timestamps are not modelled. -/
structure ChangeEvent where
  old_cap : ℚ
  new_cap : ℚ
  change : ℚ
  change_percent : ℚ
  total_assets : Option ℚ
  max_supply : Option ℚ
  deriving DecidableEq, Repr

/-- What one cycle printed: the initial-cap line (first successful cycle),
nothing beyond the routine lines (no change), the change block together
with the webhook attempt's logged result, or the timestamped error line of
the cycle-boundary `except` handler. -/
inductive CycleOutcome where
  | initialized (cap : ℚ)
  | noChange
  | changed (event : ChangeEvent) (notify : NotifyResult)
  | errored
  deriving DecidableEq, Repr

/-- A cycle emitted a ChangeEvent: it printed the change block and ran the
webhook attempt. -/
def isChanged : CycleOutcome → Bool
  | .changed _ _ => true
  | _ => false

/-- Model of `check_cap_change`.  Mirrors the source line by line:
a failed mandatory read raises and is caught by the boundary handler
(state untouched); an unset `previous_cap` initializes to
`float(current_cap)`; `float(current_cap) != self.previous_cap` triggers
the change branch, whose percent computation `change / self.previous_cap`
raises `ZeroDivisionError` when the stored float is `0.0` (caught by the
boundary handler before the change block is printed and before the state
update); otherwise the change block is printed, the webhook attempted, and
only then the new float committed. -/
def check_cap_change (webhookUrl : Option String) (previous_cap : Option ℚ)
    (inp : CycleInput) : Option ℚ × CycleOutcome :=
  match inp.capRead with
  | none => (previous_cap, .errored)
  | some w =>
    let current_cap : ℚ := fromWei w
    let total_assets : Option ℚ := get_total_assets inp.totalAssetsRead
    let max_supply : Option ℚ := get_max_token_supply inp.maxSupplyRead
    match previous_cap with
    | none => (some (fl64 current_cap), .initialized (fl64 current_cap))
    | some prev =>
      if fl64 current_cap ≠ prev then
        let change : ℚ := fl64 (fl64 current_cap - prev)
        if prev = 0 then (some prev, .errored)
        else
          let change_percent : ℚ := fl64 (fl64 (change / prev) * 100)
          (some (fl64 current_cap),
            .changed
              { old_cap := prev, new_cap := fl64 current_cap, change := change,
                change_percent := change_percent, total_assets := total_assets,
                max_supply := max_supply }
              (send_webhook_notification webhookUrl inp.webhookOutcome))
      else (previous_cap, .noChange)

/-- The scheduling loop of `start`: run `check_cap_change` once per tick,
threading `self.previous_cap`, and collect each cycle's outcome.  The real
loop is infinite; a run over a list models its first `length` ticks. -/
def runFrom (webhookUrl : Option String) (st : Option ℚ) :
    List CycleInput → Option ℚ × List CycleOutcome
  | [] => (st, [])
  | inp :: rest =>
    let r := check_cap_change webhookUrl st inp
    let k := runFrom webhookUrl r.1 rest
    (k.1, r.2 :: k.2)

/-- A cycle in which the deposit-cap read succeeds with raw value `w`, both
optional reads fail, and a webhook attempt would see a 200 response. -/
def okInput (w : ℕ) : CycleInput := ⟨some w, none, none, .response 200⟩

/-- A full run of the monitor on successfully sampled raw cap values:
`previous_cap` starts as `None` (`__init__`), then one cycle per sample. -/
def runCaps (webhookUrl : Option String) (caps : List ℕ) :
    Option ℚ × List CycleOutcome :=
  runFrom webhookUrl none (caps.map okInput)

/-- Model of `VaultCapMonitor.__init__`: when `w3.is_connected()` fails the
constructor raises; otherwise the monitor starts with `previous_cap = None`. -/
def VaultCapMonitor_connect (connected : Bool) : Except String (Option ℚ) :=
  if connected then .ok none else .error "Unable to connect to HyperEVM RPC"

/-- Observable result of running the process. `exitCode = none` models the
loop running indefinitely. -/
structure MainOutcome where
  startedMonitoring : Bool
  fatalErrorLogged : Bool
  exitCode : Option ℕ
  deriving DecidableEq, Repr

/-- Model of `main` plus the interpreter exit: a constructor exception is
caught by the `except Exception` clause of `main`, which prints the fatal
error and returns normally, so `asyncio.run(main())` completes and the
interpreter exits with status 0; on success the loop runs forever. -/
def mainRun (connected : Bool) : MainOutcome :=
  match VaultCapMonitor_connect connected with
  | .error _ => ⟨false, true, some 0⟩
  | .ok _ => ⟨true, false, none⟩

/-! ## Evaluation lemmas

Branch-guarded rewrite rules so that concrete values can be computed by
`norm_num` without the fuel recursion of `expAux` being expanded along
untaken branches. -/

theorem expAux_down (f : ℕ) (q : ℚ) (e : ℤ) (h : q < 1) :
    expAux (f + 1) q e = expAux f (2 * q) (e - 1) := by
  simp [expAux, h]

theorem expAux_up (f : ℕ) (q : ℚ) (e : ℤ) (h : 2 ≤ q) :
    expAux (f + 1) q e = expAux f (q / 2) (e + 1) := by
  have h1 : ¬(q < 1) := by linarith
  simp [expAux, h, h1]

theorem expAux_stop (f : ℕ) (q : ℚ) (e : ℤ) (h1 : 1 ≤ q) (h2 : q < 2) :
    expAux (f + 1) q e = e := by
  have h1h : ¬(q < 1) := not_lt.mpr h1
  have h2h : ¬(2 ≤ q) := not_le.mpr h2
  simp [expAux, h1h, h2h]

theorem fl64_zero : fl64 0 = 0 := by
  rw [fl64, if_pos rfl]

theorem fl64_of_pos (q : ℚ) (h : 0 < q) : fl64 q = fl64pos q := by
  rw [fl64, if_neg (ne_of_gt h), if_pos h]

theorem fl64_of_neg (q : ℚ) (h : q < 0) : fl64 q = -fl64pos (-q) := by
  rw [fl64, if_neg (ne_of_lt h), if_neg (not_lt.mpr (le_of_lt h))]

/-! ## Branch characterization of `check_cap_change` -/

theorem check_read_failure (wh : Option String) (st : Option ℚ) (ta ms : Option ℕ)
    (wo : WebhookOutcome) :
    check_cap_change wh st ⟨none, ta, ms, wo⟩ = (st, .errored) := rfl

theorem check_first (wh : Option String) (w : ℕ) (ta ms : Option ℕ) (wo : WebhookOutcome) :
    check_cap_change wh none ⟨some w, ta, ms, wo⟩ =
      (some (fl64 (fromWei w)), .initialized (fl64 (fromWei w))) := rfl

theorem check_noChange (wh : Option String) (p : ℚ) (w : ℕ) (ta ms : Option ℕ)
    (wo : WebhookOutcome) (h : fl64 (fromWei w) = p) :
    check_cap_change wh (some p) ⟨some w, ta, ms, wo⟩ = (some p, .noChange) := by
  simp [check_cap_change, h]

theorem check_zeroPrev (wh : Option String) (w : ℕ) (ta ms : Option ℕ)
    (wo : WebhookOutcome) (h : fl64 (fromWei w) ≠ 0) :
    check_cap_change wh (some 0) ⟨some w, ta, ms, wo⟩ = (some 0, .errored) := by
  simp [check_cap_change, h]

theorem check_changed (wh : Option String) (p : ℚ) (w : ℕ) (ta ms : Option ℕ)
    (wo : WebhookOutcome) (hne : fl64 (fromWei w) ≠ p) (h0 : p ≠ 0) :
    check_cap_change wh (some p) ⟨some w, ta, ms, wo⟩ =
      (some (fl64 (fromWei w)),
        .changed
          { old_cap := p, new_cap := fl64 (fromWei w),
            change := fl64 (fl64 (fromWei w) - p),
            change_percent := fl64 (fl64 (fl64 (fl64 (fromWei w) - p) / p) * 100),
            total_assets := get_total_assets ta, max_supply := get_max_token_supply ms }
          (send_webhook_notification wh wo)) := by
  simp [check_cap_change, hne, h0]

/-! ## Concrete float evaluations shared by witnesses and counterexamples -/

theorem fromWei_zero_eval : fromWei 0 = 0 := by norm_num [fromWei]

theorem fl64_fromWei_zero : fl64 (fromWei 0) = 0 := by rw [fromWei_zero_eval, fl64_zero]

theorem fl64_fromWei_one_ether : fl64 (fromWei (10 ^ 18)) = 1 := by
  norm_num [fl64_of_pos, fromWei, fl64pos, findExp, expAux_down, expAux_up, expAux_stop, rndNE]

theorem fl64_fromWei_one_ether_one_wei : fl64 (fromWei (10 ^ 18 + 1)) = 1 := by
  norm_num [fl64_of_pos, fromWei, fl64pos, findExp, expAux_down, expAux_up, expAux_stop, rndNE]

theorem fl64_fromWei_two_ether : fl64 (fromWei (2 * 10 ^ 18)) = 2 := by
  norm_num [fl64_of_pos, fromWei, fl64pos, findExp, expAux_down, expAux_up, expAux_stop, rndNE]

theorem fl64_fromWei_fifty_ether : fl64 (fromWei (50 * 10 ^ 18)) = 50 := by
  norm_num [fl64_of_pos, fromWei, fl64pos, findExp, expAux_down, expAux_up, expAux_stop, rndNE]

theorem fl64_one_eval : fl64 1 = 1 := by
  norm_num [fl64_of_pos, fl64pos, findExp, expAux_down, expAux_up, expAux_stop, rndNE]

theorem fl64_hundred_eval : fl64 100 = 100 := by
  norm_num [fl64_of_pos, fl64pos, findExp, expAux_down, expAux_up, expAux_stop, rndNE]

/-! ## C2: a change away from a stored cap of zero -/

/-- C2 counterexample: with stored cap `0.0` and a newly sampled cap of 50
tokens, the cycle does not report the percent as not-applicable: the
percent computation `change / self.previous_cap` raises `ZeroDivisionError`,
the boundary handler logs an error, no ChangeEvent is emitted and the state
is not updated. -/
theorem c2_counterexample :
    check_cap_change none (some 0) ⟨some (50 * 10 ^ 18), none, none, .response 200⟩
        = (some 0, .errored) ∧
    isChanged (check_cap_change none (some 0)
        ⟨some (50 * 10 ^ 18), none, none, .response 200⟩).2 = false := by
  have h : fl64 (fromWei (50 * 10 ^ 18)) ≠ 0 := by rw [fl64_fromWei_fifty_ether]; norm_num
  rw [check_zeroPrev none (50 * 10 ^ 18) none none (.response 200) h]
  exact ⟨rfl, rfl⟩

/-- C2 (amended): whenever the stored cap is `0.0` and the newly sampled cap
converts to a different float, the percent computation raises
`ZeroDivisionError`; the cycle aborts through the boundary handler with an
error log, no ChangeEvent is emitted, and the stored cap stays `0.0`. -/
theorem c2_zero_prev_division_error (wh : Option String) (w : ℕ) (ta ms : Option ℕ)
    (wo : WebhookOutcome) (h : fl64 (fromWei w) ≠ 0) :
    check_cap_change wh (some 0) ⟨some w, ta, ms, wo⟩ = (some 0, .errored) :=
  check_zeroPrev wh w ta ms wo h

/-- C2 witness: the amended behaviour at the concrete input of the spec's
example (oldCap = 0, newCap = 50). -/
theorem c2_witness :
    check_cap_change (some "hook") (some 0) ⟨some (50 * 10 ^ 18), some 0, none, .response 200⟩
        = (some 0, .errored) :=
  c2_zero_prev_division_error (some "hook") (50 * 10 ^ 18) (some 0) none (.response 200)
    (by rw [fl64_fromWei_fifty_ether]; norm_num)

/-! ## C3: exact-equality change detection at one base unit -/

/-- C3 counterexample: the raw caps 10^18 and 10^18 + 1 differ by exactly
one base unit (10^-18 after conversion), yet with the first one stored the
cycle sampling the second is classified as no change: both convert to the
same binary64 float 1.0. -/
theorem c3_counterexample :
    fromWei (10 ^ 18 + 1) - fromWei (10 ^ 18) = 1 / 10 ^ 18 ∧
    (check_cap_change none (some (fl64 (fromWei (10 ^ 18))))
        ⟨some (10 ^ 18 + 1), none, none, .response 200⟩).2 = .noChange := by
  constructor
  · norm_num [fromWei]
  · rw [fl64_fromWei_one_ether,
      check_noChange none 1 (10 ^ 18 + 1) none none (.response 200)
        (by rw [fl64_fromWei_one_ether_one_wei])]

/-- C3 (amended): the detector compares the binary64 float conversions for
exact equality, with no tolerance: with the float of `w1` stored, the cycle
sampling `w2` is classified as Changed exactly when the two float
conversions differ and the stored float is nonzero.  So a pair one base
unit apart is detected only when its two roundings differ (10^18 and
10^18 + 1 collapse to the same double 1.0 and are classified NoChange),
and when the stored float is 0.0 a sample whose rounding differs makes the
cycle abort with `ZeroDivisionError` instead of being classified as
Changed. -/
theorem c3_float_equality_decides (wh : Option String) (w1 w2 : ℕ) (ta ms : Option ℕ)
    (wo : WebhookOutcome) :
    (isChanged (check_cap_change wh (some (fl64 (fromWei w1)))
        ⟨some w2, ta, ms, wo⟩).2 = true ↔
      (fl64 (fromWei w2) ≠ fl64 (fromWei w1) ∧ fl64 (fromWei w1) ≠ 0)) ∧
    (fl64 (fromWei w1) = 0 → fl64 (fromWei w2) ≠ 0 →
      (check_cap_change wh (some (fl64 (fromWei w1)))
        ⟨some w2, ta, ms, wo⟩).2 = .errored) := by
  by_cases hc : fl64 (fromWei w2) = fl64 (fromWei w1)
  · rw [check_noChange wh _ w2 ta ms wo hc]
    constructor
    · simp [isChanged, hc]
    · intro h0 h2
      rw [hc, h0] at h2
      exact absurd rfl h2
  · by_cases h0 : fl64 (fromWei w1) = 0
    · rw [h0] at hc ⊢
      rw [check_zeroPrev wh w2 ta ms wo hc]
      constructor
      · simp [isChanged]
      · intro _ _
        rfl
    · rw [check_changed wh _ w2 ta ms wo hc h0]
      constructor
      · simp [isChanged, hc, h0]
      · intro hz _
        exact absurd hz h0

/-! ## C4: precision of conversion, storage and arithmetic -/

/-- C4 counterexample: the raw cap 10^18 + 1 needs 19 significant digits.
Its exact decimal conversion is 1 + 10^-18, but the value the program
stores as the last cap is the binary64 float 1.0: the stored state lost
the low digit, so storage is not performed with a lossless decimal or
scaled-integer type. -/
theorem c4_counterexample :
    (check_cap_change none none ⟨some (10 ^ 18 + 1), none, none, .response 200⟩).1
        = some 1 ∧
    fromWei (10 ^ 18 + 1) ≠ 1 := by
  constructor
  · rw [check_first, fl64_fromWei_one_ether_one_wei]
  · norm_num [fromWei]

/-- C4 (amended): the wire-to-decimal conversion itself is exact (the
modelled `from_wei` multiplies back to the raw integer), but the value
committed to the last-cap state is the binary64 rounding `fl64` of that
decimal — the program stores and computes with Python floats, which lose
precision beyond 53 significant bits, as the counterexample shows. -/
theorem c4_conversion_exact_storage_float (wh : Option String) (w : ℕ)
    (ta ms : Option ℕ) (wo : WebhookOutcome) :
    fromWei w * 10 ^ 18 = (w : ℚ) ∧
    (check_cap_change wh none ⟨some w, ta, ms, wo⟩).1 = some (fl64 (fromWei w)) := by
  constructor
  · rw [fromWei]; field_simp
  · rw [check_first]

/-! ## C5: failure of the mandatory deposit-cap read -/

/-- C5: when `get_current_cap` raises, the cycle aborts through the
boundary handler (which logs the timestamped error line): no ChangeEvent is
emitted, the stored state is exactly what it was, and the loop goes on to
process the remaining ticks as if the failed cycle had not happened. -/
theorem c5_read_failure_aborts_cycle (wh : Option String) (st : Option ℚ)
    (ta ms : Option ℕ) (wo : WebhookOutcome) (rest : List CycleInput) :
    check_cap_change wh st ⟨none, ta, ms, wo⟩ = (st, .errored) ∧
    isChanged (check_cap_change wh st ⟨none, ta, ms, wo⟩).2 = false ∧
    runFrom wh st (⟨none, ta, ms, wo⟩ :: rest)
      = ((runFrom wh st rest).1, .errored :: (runFrom wh st rest).2) := by
  refine ⟨rfl, rfl, ?_⟩
  simp [runFrom, check_read_failure]

/-! ## C6: the notifier never fails its caller -/

/-- C6 counterexample: a final HTTP status of 304 is not a 2xx response,
yet the program logs the success line for it, not an error: the check is
`response.ok` (status < 400), so not every non-2xx response is caught and
logged as an error. -/
theorem c6_counterexample :
    300 ≤ 304 ∧
    send_webhook_notification (some "hook") (.response 304) = .okLogged 304 := by
  exact ⟨by norm_num, rfl⟩

/-- C6 (amended): the notifier is a total function — every webhook outcome
(request exception or HTTP response) yields a logged result, never an
exception for the caller — statuses of 400 and above are logged as errors,
request exceptions are logged, and the change branch commits the new float
cap regardless of which webhook outcome the cycle saw (the outcome `wo`
is universally quantified and the committed state does not depend on it).
Statuses below 400, including non-2xx ones such as 304, are logged as
success. -/
theorem c6_notify_total_and_commit (wh : Option String) (p : ℚ) (w : ℕ)
    (ta ms : Option ℕ) (wo : WebhookOutcome) (u : String) (status : ℕ)
    (hne : fl64 (fromWei w) ≠ p) (h0 : p ≠ 0) :
    (check_cap_change wh (some p) ⟨some w, ta, ms, wo⟩).1 = some (fl64 (fromWei w)) ∧
    isChanged (check_cap_change wh (some p) ⟨some w, ta, ms, wo⟩).2 = true ∧
    (400 ≤ status →
      send_webhook_notification (some u) (.response status) = .errorLogged status) ∧
    send_webhook_notification (some u) .requestError = .exceptionLogged := by
  rw [check_changed wh p w ta ms wo hne h0]
  refine ⟨rfl, rfl, ?_, rfl⟩
  intro hs
  simp [send_webhook_notification, Nat.not_lt.mpr hs]

/-- C6 witness: the commit-regardless-of-outcome property at a concrete
changed cycle whose webhook attempt raises, and a concrete 500 status. -/
theorem c6_witness :
    (check_cap_change (some "hook") (some 1)
        ⟨some (2 * 10 ^ 18), none, none, .requestError⟩).1
      = some (fl64 (fromWei (2 * 10 ^ 18))) ∧
    isChanged (check_cap_change (some "hook") (some 1)
        ⟨some (2 * 10 ^ 18), none, none, .requestError⟩).2 = true ∧
    (400 ≤ 500 →
      send_webhook_notification (some "hook") (.response 500) = .errorLogged 500) ∧
    send_webhook_notification (some "hook") .requestError = .exceptionLogged :=
  c6_notify_total_and_commit (some "hook") 1 (2 * 10 ^ 18) none none .requestError
    "hook" 500 (by rw [fl64_fromWei_two_ether]; norm_num) (by norm_num)

/-! ## C7: degraded optional reads -/

/-- C7 counterexample: stored cap 0.0 (a paused vault), the sampled cap
moves to 2 tokens, the total-assets read fails and the max-supply read
succeeds.  The claim says such a cycle completes normally and reports the
change with total assets marked unavailable; instead the percent
computation raises `ZeroDivisionError`, the cycle aborts through the
boundary handler, and nothing is reported — so a degraded-read cycle does
not always complete normally. -/
theorem c7_counterexample :
    check_cap_change (some "hook") (some 0)
        ⟨some (2 * 10 ^ 18), none, some (10 ^ 18), .response 200⟩ = (some 0, .errored) ∧
    isChanged (check_cap_change (some "hook") (some 0)
        ⟨some (2 * 10 ^ 18), none, some (10 ^ 18), .response 200⟩).2 = false := by
  have h : fl64 (fromWei (2 * 10 ^ 18)) ≠ 0 := by
    rw [fl64_fromWei_two_ether]
    norm_num
  rw [check_zeroPrev (some "hook") (2 * 10 ^ 18) none (some (10 ^ 18)) (.response 200) h]
  exact ⟨rfl, rfl⟩

/-- C7 (amended): when the total-assets or max-supply read fails, the
failed value is replaced by the N/A marker (`none`) and the failed read
never aborts the cycle by itself; whenever such a cycle enters the change
branch with a nonzero stored cap, it completes normally and the cap change
is detected and reported, the event carrying the substituted markers.
(When the stored cap is the float 0.0 and the sampled cap differs, the
cycle aborts with `ZeroDivisionError` regardless of the optional reads —
see the counterexample.) -/
theorem c7_degraded_reads_still_detect (wh : Option String) (p : ℚ) (w : ℕ)
    (ta ms : Option ℕ) (wo : WebhookOutcome) (hfail : ta = none ∨ ms = none)
    (hne : fl64 (fromWei w) ≠ p) (h0 : p ≠ 0) :
    check_cap_change wh (some p) ⟨some w, ta, ms, wo⟩ =
      (some (fl64 (fromWei w)),
        .changed
          { old_cap := p, new_cap := fl64 (fromWei w),
            change := fl64 (fl64 (fromWei w) - p),
            change_percent := fl64 (fl64 (fl64 (fl64 (fromWei w) - p) / p) * 100),
            total_assets := get_total_assets ta, max_supply := get_max_token_supply ms }
          (send_webhook_notification wh wo)) ∧
    (get_total_assets ta = none ∨ get_max_token_supply ms = none) := by
  refine ⟨check_changed wh p w ta ms wo hne h0, ?_⟩
  rcases hfail with h | h
  · exact Or.inl (by rw [h]; rfl)
  · exact Or.inr (by rw [h]; rfl)

/-- C7 witness: both optional reads fail while the cap moves from 1.0 to
2.0; the cycle completes with a ChangeEvent carrying the N/A markers. -/
theorem c7_witness :
    check_cap_change none (some 1) ⟨some (2 * 10 ^ 18), none, none, .response 200⟩ =
      (some (fl64 (fromWei (2 * 10 ^ 18))),
        .changed
          { old_cap := 1, new_cap := fl64 (fromWei (2 * 10 ^ 18)),
            change := fl64 (fl64 (fromWei (2 * 10 ^ 18)) - 1),
            change_percent :=
              fl64 (fl64 (fl64 (fl64 (fromWei (2 * 10 ^ 18)) - 1) / 1) * 100),
            total_assets := get_total_assets none, max_supply := get_max_token_supply none }
          (send_webhook_notification none (.response 200))) ∧
    (get_total_assets none = none ∨ get_max_token_supply none = none) :=
  c7_degraded_reads_still_detect none 1 (2 * 10 ^ 18) none none (.response 200)
    (Or.inl rfl) (by rw [fl64_fromWei_two_ether]; norm_num) (by norm_num)

/-! ## C8: startup connectivity failure -/

/-- C8 counterexample: when the RPC connection check fails at construction
time the process indeed never starts monitoring and terminates immediately,
but `main` catches the constructor's exception, logs the fatal error and
returns normally, so the interpreter exits with status 0 — not a
nonzero-equivalent failure state. -/
theorem c8_counterexample :
    (mainRun false).startedMonitoring = false ∧
    (mainRun false).exitCode = some 0 := ⟨rfl, rfl⟩

/-- C8 (amended): a failed startup connection check makes the constructor
raise, monitoring never starts and the process terminates at once after
logging the fatal error; because `main` swallows the exception, the exit
status is the normal zero, not a nonzero one. -/
theorem c8_startup_failure_exits_zero :
    VaultCapMonitor_connect false = .error "Unable to connect to HyperEVM RPC" ∧
    mainRun false = ⟨false, true, some 0⟩ ∧
    mainRun true = ⟨true, false, none⟩ := ⟨rfl, rfl, rfl⟩

/-! ## C9: idempotence of detection -/

theorem runFrom_fixed (wh : Option String) (inp : CycleInput) (st : Option ℚ)
    (h : (check_cap_change wh st inp).1 = st) (n : ℕ) :
    runFrom wh st (List.replicate n inp) =
      (st, List.replicate n (check_cap_change wh st inp).2) := by
  induction n with
  | zero => rfl
  | succ k ihk => simp only [List.replicate_succ, runFrom, h, ihk]

theorem countP_isChanged_replicate (o : CycleOutcome) (n : ℕ) (h : isChanged o = false) :
    (List.replicate n o).countP isChanged = 0 := by
  induction n with
  | zero => rfl
  | succ k ihk => rw [List.replicate_succ, List.countP_cons, ihk, h]; simp

/-- C9: once a sampled value `v` has been processed from any stored cap, all
later consecutive cycles sampling the same `v` produce no further
ChangeEvent and leave the state exactly where the first of these cycles put
it: across the whole run at most one ChangeEvent is emitted, the final
state is the state after the first cycle, and every outcome after the first
is not a ChangeEvent. -/
theorem c9_idempotent_detection (wh : Option String) (p : ℚ) (v n : ℕ) :
    ((runFrom wh (some p) (List.replicate (n + 1) (okInput v))).2.countP isChanged ≤ 1) ∧
    (runFrom wh (some p) (List.replicate (n + 1) (okInput v))).1 =
      (check_cap_change wh (some p) (okInput v)).1 ∧
    (∀ o ∈ (runFrom wh (some p) (List.replicate (n + 1) (okInput v))).2.drop 1,
      isChanged o = false) := by
  obtain ⟨st1, hfirst, hfix, hno⟩ :
      ∃ st1, (check_cap_change wh (some p) (okInput v)).1 = st1 ∧
        (check_cap_change wh st1 (okInput v)).1 = st1 ∧
        isChanged (check_cap_change wh st1 (okInput v)).2 = false := by
    by_cases hfp : fl64 (fromWei v) = p
    · refine ⟨some p, ?_, ?_, ?_⟩ <;>
        rw [show okInput v = ⟨some v, none, none, .response 200⟩ from rfl,
          check_noChange wh p v none none (.response 200) hfp] <;> rfl
    · by_cases hp0 : p = 0
      · subst hp0
        refine ⟨some 0, ?_, ?_, ?_⟩ <;>
          rw [show okInput v = ⟨some v, none, none, .response 200⟩ from rfl,
            check_zeroPrev wh v none none (.response 200) hfp] <;> rfl
      · refine ⟨some (fl64 (fromWei v)), ?_, ?_, ?_⟩
        · rw [show okInput v = ⟨some v, none, none, .response 200⟩ from rfl,
            check_changed wh p v none none (.response 200) hfp hp0]
        · rw [show okInput v = ⟨some v, none, none, .response 200⟩ from rfl,
            check_noChange wh (fl64 (fromWei v)) v none none (.response 200) rfl]
        · rw [show okInput v = ⟨some v, none, none, .response 200⟩ from rfl,
            check_noChange wh (fl64 (fromWei v)) v none none (.response 200) rfl]
          rfl
  have hdec : runFrom wh (some p) (List.replicate (n + 1) (okInput v)) =
      (st1, (check_cap_change wh (some p) (okInput v)).2 ::
        List.replicate n (check_cap_change wh st1 (okInput v)).2) := by
    rw [List.replicate_succ]
    simp only [runFrom]
    rw [hfirst, runFrom_fixed wh (okInput v) st1 hfix n]
  rw [hdec, hfirst]
  refine ⟨?_, rfl, ?_⟩
  · rw [List.countP_cons, countP_isChanged_replicate _ _ hno]
    split <;> omega
  · intro o ho
    simp only [List.drop_succ_cons, List.drop_zero] at ho
    rw [List.eq_of_mem_replicate ho, hno]

/-! ## C1: when exactly a ChangeEvent is produced -/

theorem fl64_fromWei_three_ether : fl64 (fromWei (3 * 10 ^ 18)) = 3 := by
  norm_num [fl64_of_pos, fromWei, fl64pos, findExp, expAux_down, expAux_up, expAux_stop, rndNE]

/-- Outcome characterization of a run whose stored cap starts set and
nonzero, over samples whose float conversions are all nonzero: cycle `i`
emits a ChangeEvent exactly when its float conversion differs from the
float conversion of the previous sample (the starting cap for `i = 0`). -/
theorem run_events_from (wh : Option String) :
    ∀ (caps : List ℕ) (p : ℚ), p ≠ 0 → (∀ c ∈ caps, fl64 (fromWei c) ≠ 0) →
      ∀ i, i < caps.length →
        (isChanged ((runFrom wh (some p) (caps.map okInput)).2.getD i .noChange) = true ↔
          fl64 (fromWei (caps.getD i 0)) ≠
            (if i = 0 then p else fl64 (fromWei (caps.getD (i - 1) 0)))) := by
  intro caps
  induction caps with
  | nil => intro p hp h i hi; simp at hi
  | cons c cs ih =>
    intro p hp h i hi
    have hc : fl64 (fromWei c) ≠ 0 := h c (List.mem_cons_self c cs)
    have hcs : ∀ x ∈ cs, fl64 (fromWei x) ≠ 0 := fun x hx => h x (List.mem_cons_of_mem c hx)
    by_cases hne : fl64 (fromWei c) = p
    · have hstep : check_cap_change wh (some p) (okInput c) = (some p, .noChange) := by
        rw [show okInput c = ⟨some c, none, none, .response 200⟩ from rfl,
          check_noChange wh p c none none (.response 200) hne]
      cases i with
      | zero => simp [runFrom, hstep, isChanged, hne]
      | succ j =>
        have hj : j < cs.length := by simpa using hi
        have hihj := ih p hp hcs j hj
        cases j with
        | zero => simpa [runFrom, hstep, hne] using hihj
        | succ k => simpa [runFrom, hstep] using hihj
    · have hstep : check_cap_change wh (some p) (okInput c) =
          (some (fl64 (fromWei c)),
            .changed
              { old_cap := p, new_cap := fl64 (fromWei c),
                change := fl64 (fl64 (fromWei c) - p),
                change_percent := fl64 (fl64 (fl64 (fl64 (fromWei c) - p) / p) * 100),
                total_assets := get_total_assets none, max_supply := get_max_token_supply none }
              (send_webhook_notification wh (.response 200))) := by
        rw [show okInput c = ⟨some c, none, none, .response 200⟩ from rfl,
          check_changed wh p c none none (.response 200) hne hp]
      cases i with
      | zero => simp [runFrom, hstep, isChanged, hne]
      | succ j =>
        have hj : j < cs.length := by simpa using hi
        have hihj := ih (fl64 (fromWei c)) hc hcs j hj
        cases j with
        | zero => simpa [runFrom, hstep] using hihj
        | succ k => simpa [runFrom, hstep] using hihj

/-- C1 (amended): over a run of successfully sampled cap values whose float
conversions are all nonzero, the very first cycle only initializes the
state (no ChangeEvent), and a later cycle emits a ChangeEvent exactly when
its sampled cap differs, under the program's float comparison, from the
immediately preceding sampled cap.  (When a stored cap is the float 0.0, a
differing sample instead aborts with `ZeroDivisionError` and emits nothing,
which is why the zero case must be excluded; see the counterexample.) -/
theorem c1_change_event_iff (wh : Option String) (caps : List ℕ)
    (h : ∀ c ∈ caps, fl64 (fromWei c) ≠ 0) :
    (caps ≠ [] → (runCaps wh caps).2.getD 0 .noChange =
      .initialized (fl64 (fromWei (caps.getD 0 0)))) ∧
    (∀ i, i + 1 < caps.length →
      (isChanged ((runCaps wh caps).2.getD (i + 1) .noChange) = true ↔
        fl64 (fromWei (caps.getD (i + 1) 0)) ≠ fl64 (fromWei (caps.getD i 0)))) := by
  cases caps with
  | nil =>
    refine ⟨fun hne => absurd rfl hne, fun i hi => ?_⟩
    simp at hi
  | cons c cs =>
    have hc : fl64 (fromWei c) ≠ 0 := h c (List.mem_cons_self c cs)
    have hcs : ∀ x ∈ cs, fl64 (fromWei x) ≠ 0 := fun x hx => h x (List.mem_cons_of_mem c hx)
    have hfirst : check_cap_change wh none (okInput c) =
        (some (fl64 (fromWei c)), .initialized (fl64 (fromWei c))) := by
      rw [show okInput c = ⟨some c, none, none, .response 200⟩ from rfl,
        check_first wh c none none (.response 200)]
    constructor
    · intro _
      simp [runCaps, runFrom, hfirst]
    · intro i hi
      have hj : i < cs.length := by simpa using hi
      have hihj := run_events_from wh cs (fl64 (fromWei c)) hc hcs i hj
      cases i with
      | zero => simpa [runCaps, runFrom, hfirst] using hihj
      | succ k => simpa [runCaps, runFrom, hfirst] using hihj

/-- C1 counterexample: the sampled sequence 0 then 50 tokens.  The second
cycle's cap differs from the first under the program's float comparison,
yet no ChangeEvent is produced: the percent computation divides by the
stored 0.0 and the cycle aborts with an error, so the claimed
"if and only if" fails in the only-if-differs direction. -/
theorem c1_counterexample :
    (runCaps none [0, 50 * 10 ^ 18]).2 = [.initialized 0, .errored] ∧
    fl64 (fromWei (50 * 10 ^ 18)) ≠ fl64 (fromWei 0) ∧
    isChanged ((runCaps none [0, 50 * 10 ^ 18]).2.getD 1 .noChange) = false := by
  have h1 : check_cap_change none none
      (⟨some 0, none, none, .response 200⟩ : CycleInput) = (some 0, .initialized 0) := by
    rw [check_first none 0 none none (.response 200), fl64_fromWei_zero]
  have h2 : check_cap_change none (some 0)
      (⟨some (50 * 10 ^ 18), none, none, .response 200⟩ : CycleInput) = (some 0, .errored) :=
    check_zeroPrev none (50 * 10 ^ 18) none none (.response 200)
      (by rw [fl64_fromWei_fifty_ether]; norm_num)
  have hrun : (runCaps none [0, 50 * 10 ^ 18]).2 = [.initialized 0, .errored] := by
    simp only [runCaps, List.map, okInput, runFrom, h1, h2]
  refine ⟨hrun, ?_, ?_⟩
  · rw [fl64_fromWei_fifty_ether, fl64_fromWei_zero]; norm_num
  · rw [hrun]; rfl

/-- C1 witness: the amended iff at the concrete two-sample run 1 token then
3 tokens (floats 1.0 and 3.0), instantiated at the second cycle. -/
theorem c1_witness :
    isChanged ((runCaps none [10 ^ 18, 3 * 10 ^ 18]).2.getD 1 .noChange) = true ↔
      fl64 (fromWei ([10 ^ 18, 3 * 10 ^ 18].getD 1 0)) ≠
        fl64 (fromWei ([10 ^ 18, 3 * 10 ^ 18].getD 0 0)) :=
  (c1_change_event_iff none [10 ^ 18, 3 * 10 ^ 18]
    (by
      intro c hcm
      simp only [List.mem_cons, List.not_mem_nil, or_false] at hcm
      rcases hcm with rfl | rfl
      · rw [fl64_fromWei_one_ether]; norm_num
      · rw [fl64_fromWei_three_ether]; norm_num)).2 0 (by norm_num)

/-! ## C10: shape and bounds of the stored state -/

theorem rndNE_le (x : ℚ) : (rndNE x : ℚ) ≤ x + 1 := by
  have hf := Int.floor_le x
  simp only [rndNE]
  split_ifs <;> push_cast <;> linarith

theorem rndNE_nonneg (x : ℚ) (hx : 0 ≤ x) : 0 ≤ rndNE x := by
  have hf : (0 : ℤ) ≤ ⌊x⌋ := Int.floor_nonneg.mpr hx
  simp only [rndNE]
  split_ifs <;> omega

theorem expAux_le (fuel : ℕ) : ∀ (q : ℚ) (e : ℤ) (B : ℕ), 0 < q → q ≤ 2 ^ B →
    expAux fuel q e ≤ e + B := by
  induction fuel with
  | zero =>
    intro q e B hq hB
    simp only [expAux]
    omega
  | succ f ihf =>
    intro q e B hq hB
    by_cases h1 : q < 1
    · rw [expAux_down f q e h1]
      have h2q : 2 * q ≤ 2 ^ (B + 1) := by
        rw [pow_succ]
        linarith
      have hres := ihf (2 * q) (e - 1) (B + 1) (by positivity) h2q
      push_cast at hres ⊢
      omega
    · by_cases h2 : 2 ≤ q
      · rw [expAux_up f q e h2]
        have hB1 : 1 ≤ B := by
          by_contra hB0
          push_neg at hB0
          have hB00 : B = 0 := by omega
          rw [hB00, pow_zero] at hB
          linarith
        have hq2 : q / 2 ≤ 2 ^ (B - 1) := by
          have h2B : (2 : ℚ) ^ B = 2 ^ (B - 1) * 2 := by
            rw [← pow_succ]
            congr 1
            omega
          rw [h2B] at hB
          linarith
        have hres := ihf (q / 2) (e + 1) (B - 1) (by positivity) hq2
        rw [Nat.cast_sub hB1] at hres
        push_cast at hres ⊢
        omega
      · rw [expAux_stop f q e (not_lt.mp h1) (not_le.mp h2)]
        omega

theorem fl64pos_le_add (q : ℚ) (hq : 0 < q) (B : ℕ) (hB : q ≤ 2 ^ B) :
    fl64pos q ≤ q + 2 ^ ((B : ℤ) - 52) := by
  have he : findExp q ≤ (B : ℤ) := by
    have h := expAux_le 1200 q 0 B hq hB
    simpa [findExp] using h
  simp only [fl64pos]
  have hpow : (0 : ℚ) < 2 ^ (findExp q - 52) := by positivity
  have hz : (2 : ℚ) ^ (52 - findExp q) * 2 ^ (findExp q - 52) = 1 := by
    rw [← zpow_add₀ (by norm_num : (2 : ℚ) ≠ 0)]
    norm_num
  have h1 : (rndNE (q * 2 ^ (52 - findExp q)) : ℚ) * 2 ^ (findExp q - 52) ≤
      (q * 2 ^ (52 - findExp q) + 1) * 2 ^ (findExp q - 52) :=
    mul_le_mul_of_nonneg_right (rndNE_le _) (le_of_lt hpow)
  have h2 : (q * 2 ^ (52 - findExp q) + 1) * 2 ^ (findExp q - 52) =
      q + 2 ^ (findExp q - 52) := by
    rw [add_mul, one_mul, mul_assoc, hz, mul_one]
  have h3 : (2 : ℚ) ^ (findExp q - 52) ≤ 2 ^ ((B : ℤ) - 52) :=
    zpow_le_zpow_right₀ (by norm_num) (by omega)
  calc (rndNE (q * 2 ^ (52 - findExp q)) : ℚ) * 2 ^ (findExp q - 52)
      ≤ q + 2 ^ (findExp q - 52) := by rw [← h2]; exact h1
    _ ≤ q + 2 ^ ((B : ℤ) - 52) := by linarith

theorem fl64pos_nonneg (q : ℚ) (hq : 0 < q) : 0 ≤ fl64pos q := by
  simp only [fl64pos]
  apply mul_nonneg
  · exact_mod_cast rndNE_nonneg _ (by positivity)
  · positivity

theorem fl64_nonneg_of_nonneg (q : ℚ) (hq : 0 ≤ q) : 0 ≤ fl64 q := by
  rcases eq_or_lt_of_le hq with h | h
  · rw [← h, fl64_zero]
  · rw [fl64_of_pos q h]
    exact fl64pos_nonneg q h

theorem fl64_lt_big (q : ℚ) (h0 : 0 ≤ q) (h : q ≤ 2 ^ 256) : fl64 q < 2 ^ 1024 := by
  rcases eq_or_lt_of_le h0 with hq | hq
  · rw [← hq, fl64_zero]
    positivity
  · rw [fl64_of_pos q hq]
    have hle := fl64pos_le_add q hq 256 h
    have hexp : (((256 : ℕ) : ℤ) - 52) = ((204 : ℕ) : ℤ) := by norm_num
    rw [hexp, zpow_natCast] at hle
    have hfin : (2 : ℚ) ^ (256 : ℕ) + 2 ^ (204 : ℕ) < 2 ^ (1024 : ℕ) := by norm_num
    linarith

theorem fromWei_nonneg (w : ℕ) : 0 ≤ fromWei w := by
  rw [fromWei]
  positivity

theorem fromWei_le_self (w : ℕ) : fromWei w ≤ (w : ℚ) := by
  rw [fromWei, div_le_iff₀ (by positivity)]
  exact le_mul_of_one_le_right (Nat.cast_nonneg w) (by norm_num)

theorem check_state_cases (wh : Option String) (st : Option ℚ) (inp : CycleInput) :
    (check_cap_change wh st inp).1 = st ∨
      ∃ w, inp.capRead = some w ∧
        (check_cap_change wh st inp).1 = some (fl64 (fromWei w)) := by
  obtain ⟨cr, ta, ms, wo⟩ := inp
  cases cr with
  | none => exact Or.inl rfl
  | some w =>
    cases st with
    | none => exact Or.inr ⟨w, rfl, rfl⟩
    | some p =>
      by_cases hne : fl64 (fromWei w) = p
      · rw [check_noChange wh p w ta ms wo hne]
        exact Or.inl rfl
      · by_cases h0 : p = 0
        · subst h0
          rw [check_zeroPrev wh w ta ms wo hne]
          exact Or.inl rfl
        · rw [check_changed wh p w ta ms wo hne h0]
          exact Or.inr ⟨w, rfl, rfl⟩

theorem check_state_not_none (wh : Option String) (st : Option ℚ) (inp : CycleInput)
    (h : st ≠ none) : (check_cap_change wh st inp).1 ≠ none := by
  rcases check_state_cases wh st inp with hc | ⟨w, _, hc⟩ <;> rw [hc]
  · exact h
  · exact Option.some_ne_none _

theorem check_state_mutation (wh : Option String) (st : Option ℚ) (inp : CycleInput)
    (h : (check_cap_change wh st inp).1 ≠ st) :
    (st = none ∧ ∃ v, (check_cap_change wh st inp).2 = .initialized v) ∨
      isChanged (check_cap_change wh st inp).2 = true := by
  obtain ⟨cr, ta, ms, wo⟩ := inp
  cases cr with
  | none => exact absurd rfl h
  | some w =>
    cases st with
    | none => exact Or.inl ⟨rfl, fl64 (fromWei w), rfl⟩
    | some p =>
      by_cases hne : fl64 (fromWei w) = p
      · rw [check_noChange wh p w ta ms wo hne] at h
        exact absurd rfl h
      · by_cases h0 : p = 0
        · subst h0
          rw [check_zeroPrev wh w ta ms wo hne] at h
          exact absurd rfl h
        · rw [check_changed wh p w ta ms wo hne h0]
          exact Or.inr rfl

theorem runFrom_state_bound (wh : Option String) :
    ∀ (inputs : List CycleInput) (st : Option ℚ),
      (st = none ∨ ∃ v, st = some v ∧ 0 ≤ v ∧ v < 2 ^ 1024) →
      (∀ inp ∈ inputs, inp.capRead.getD 0 < 2 ^ 256) →
      ((runFrom wh st inputs).1 = none ∨
        ∃ v, (runFrom wh st inputs).1 = some v ∧ 0 ≤ v ∧ v < 2 ^ 1024) := by
  intro inputs
  induction inputs with
  | nil => intro st hst _; simpa [runFrom] using hst
  | cons inp rest ih =>
    intro st hst hw
    have hwi : inp.capRead.getD 0 < 2 ^ 256 := hw inp (List.mem_cons_self inp rest)
    have hwr : ∀ x ∈ rest, x.capRead.getD 0 < 2 ^ 256 :=
      fun x hx => hw x (List.mem_cons_of_mem inp hx)
    have hst1 : (check_cap_change wh st inp).1 = none ∨
        ∃ v, (check_cap_change wh st inp).1 = some v ∧ 0 ≤ v ∧ v < 2 ^ 1024 := by
      rcases check_state_cases wh st inp with hc | ⟨w, hcr, hc⟩
      · rw [hc]; exact hst
      · right
        refine ⟨fl64 (fromWei w), hc, fl64_nonneg_of_nonneg _ (fromWei_nonneg w), ?_⟩
        apply fl64_lt_big _ (fromWei_nonneg w)
        have hwlt : w < 2 ^ 256 := by
          rw [hcr] at hwi
          simpa using hwi
        calc fromWei w ≤ (w : ℚ) := fromWei_le_self w
          _ ≤ 2 ^ 256 := by exact_mod_cast hwlt.le
    simp only [runFrom]
    exact ih ((check_cap_change wh st inp).1) hst1 hwr

/-- C10: the stored last cap is `None` at construction; one cycle either
leaves it unchanged or assigns the binary64 float of the sampled wire
value; once set it never reverts to `None`; the only assignments happen on
the initialization branch of a first successful cycle or with an emitted
ChangeEvent (never on a failed cycle, and the optional getters and the
notifier do not touch it); and along any run on wire values below 2^256
the state is `None` or a finite nonnegative float below 2^1024. -/
theorem c10_state_invariant (wh : Option String) (inputs : List CycleInput)
    (hw : ∀ inp ∈ inputs, inp.capRead.getD 0 < 2 ^ 256) :
    VaultCapMonitor_connect true = .ok none ∧
    (∀ st inp, (check_cap_change wh st inp).1 = st ∨
      ∃ w, inp.capRead = some w ∧
        (check_cap_change wh st inp).1 = some (fl64 (fromWei w))) ∧
    (∀ st inp, st ≠ none → (check_cap_change wh st inp).1 ≠ none) ∧
    (∀ st inp, (check_cap_change wh st inp).1 ≠ st →
      (st = none ∧ ∃ v, (check_cap_change wh st inp).2 = .initialized v) ∨
      isChanged (check_cap_change wh st inp).2 = true) ∧
    ((runFrom wh none inputs).1 = none ∨
      ∃ v, (runFrom wh none inputs).1 = some v ∧ 0 ≤ v ∧ v < 2 ^ 1024) :=
  ⟨rfl, check_state_cases wh, check_state_not_none wh, check_state_mutation wh,
    runFrom_state_bound wh inputs none (Or.inl rfl) hw⟩

/-- C10 witness: the invariant instantiated on a concrete two-cycle run — a
successful read of one token followed by a failed read. -/
theorem c10_witness :
    VaultCapMonitor_connect true = .ok none ∧
    (∀ st inp, (check_cap_change none st inp).1 = st ∨
      ∃ w, inp.capRead = some w ∧
        (check_cap_change none st inp).1 = some (fl64 (fromWei w))) ∧
    (∀ st inp, st ≠ none → (check_cap_change none st inp).1 ≠ none) ∧
    (∀ st inp, (check_cap_change none st inp).1 ≠ st →
      (st = none ∧ ∃ v, (check_cap_change none st inp).2 = .initialized v) ∨
      isChanged (check_cap_change none st inp).2 = true) ∧
    ((runFrom none none [⟨some (10 ^ 18), none, none, .response 200⟩,
        ⟨none, none, none, .requestError⟩]).1 = none ∨
      ∃ v, (runFrom none none [⟨some (10 ^ 18), none, none, .response 200⟩,
        ⟨none, none, none, .requestError⟩]).1 = some v ∧ 0 ≤ v ∧ v < 2 ^ 1024) :=
  c10_state_invariant none
    [⟨some (10 ^ 18), none, none, .response 200⟩, ⟨none, none, none, .requestError⟩]
    (by
      intro inp hinp
      simp only [List.mem_cons, List.not_mem_nil, or_false] at hinp
      rcases hinp with rfl | rfl <;> norm_num)
